import Mathlib

/-!
Verification development for the devsecops log/CMDB audit script
(`script-model-ai-codet5-codebert.py`).

The script's pure decision logic is embedded shallowly:
* scores are modelled as rationals (every score the script computes in its
  deterministic paths is an exact decimal, so `ℚ` represents the Python
  floats faithfully);
* Python `str` values are Lean `String`s, and the handful of `str` methods
  the script uses (`in`, `strip`, `split`, `startswith`, `lower`) are
  re-implemented below over `List Char` with Python semantics;
* the external collaborators (the CodeBERT/CodeT5 models, Python's `float`
  parser and `os.path.exists`) are passed in as explicit parameters, since
  the script treats them as opaque and guards every call with a fallback;
* file output is modelled as a pure state transformer on the file content.
-/

namespace DevsecopsAudit

/-- Does `sub` occur as a contiguous run starting at some position of `l`? -/
def containsAt (sub : List Char) : List Char → Bool
  | [] => sub.isEmpty
  | c :: rest => List.isPrefixOf sub (c :: rest) || containsAt sub rest

/-- Python's `sub in s` substring test. -/
def pyIn (sub s : String) : Bool := containsAt sub.data s.data

/-- Python's `s.lower()` (ASCII case folding, which is all the script needs). -/
def py_lower (s : String) : String := ⟨s.data.map Char.toLower⟩

/-- Python's `s.startswith(pre)`. -/
def py_startswith (s pre : String) : Bool := List.isPrefixOf pre.data s.data

/-- The whitespace characters stripped by Python's `str.strip()` (ASCII part). -/
def pyWS (c : Char) : Bool :=
  c = ' ' || c = '\t' || c = '\n' || c = '\r' || c = '\x0b' || c = '\x0c'

/-- Drop leading characters satisfying `p` (left trim). -/
def trimLeft (p : Char → Bool) (l : List Char) : List Char := l.dropWhile p

/-- Drop trailing characters satisfying `p` (right trim). -/
def trimRight (p : Char → Bool) (l : List Char) : List Char :=
  (l.reverse.dropWhile p).reverse

/-- Python's `s.strip()` on the underlying character list. -/
def stripList (l : List Char) : List Char := trimRight pyWS (trimLeft pyWS l)

/-- Python's `s.strip()`. -/
def pyStrip (s : String) : String := ⟨stripList s.data⟩

/-- `get_severity` (source lines 119-125): bucket a risk score. -/
def get_severity (score : ℚ) : String × String :=
  if score > 75 then ("high", "🔴 Critical")
  else if score > 50 then ("medium", "🟠 Medium")
  else ("low", "🟢 Low")

/-- `detect_issues` (source lines 145-192): ordered keyword rules mapping a
log segment to (service, problem type, optional critical issue). -/
def detect_issues (seg : String) : String × String × Option String :=
  if pyIn "Started by user" seg || pyIn "Jenkins Build Log" seg || pyIn "Pipeline" seg then
    if pyIn "Selected Git installation does not exist" seg then
      ("Jenkins", "Git Error", some "Missing Git configuration")
    else if pyIn "No credentials specified" seg then
      ("Jenkins", "Authentication Problem", some "Git credentials not configured")
    else if pyIn "Pipeline failed" seg || pyIn "script returned exit code" seg then
      ("Jenkins", "Pipeline Failure", some "Pipeline failed")
    else
      ("Jenkins", "Build Execution", none)
  else if pyIn "SonarQube" seg || pyIn "sonar-maven-plugin" seg then
    if pyIn "can not be reached" seg || pyIn "Connect timed out" seg then
      ("SonarQube", "Connection Error", some "SonarQube unreachable")
    else if pyIn "report-task.txt" seg && pyIn "Unable to locate" seg then
      ("SonarQube", "Missing Report", some "Sonar report missing")
    else
      ("SonarQube", "Code Analysis", none)
  else if pyIn "Trivy Security Scan" seg || pyIn "Trivy log" seg then
    if pyIn "log non trouvé" seg || pyIn "Trivy log non trouvé" seg then
      ("Trivy", "Configuration Problem", some "Trivy log missing")
    else
      ("Trivy", "Security Scan", none)
  else if pyIn "apiVersion: v1" seg || pyIn "kind: Pod" seg then
    ("Kubernetes", "Configuration", none)
  else if pyIn "Spring Boot" seg || pyIn "DockerSpringBootApplicationTests" seg then
    ("SpringBoot", "Test Execution", none)
  else
    ("Other", "Information", none)

/-- A regex word character (`\w` over the ASCII range the script's logs use). -/
def isWordChar (c : Char) : Bool :=
  ('a' ≤ c && c ≤ 'z') || ('A' ≤ c && c ≤ 'Z') || ('0' ≤ c && c ≤ '9') || c = '_'

/-- Case-insensitive match of the (lower-cased) word `w` at the head of `s`,
requiring a right word boundary after the match. -/
def matchHere (w : List Char) (s : List Char) : Bool :=
  match w, s with
  | [], [] => true
  | [], c :: _ => !isWordChar c
  | _ :: _, [] => false
  | a :: w', c :: s' => c.toLower == a && matchHere w' s'

/-- Scan `s` for a case-insensitive occurrence of whole word `w`;
`atB` records whether the current position sits at a left word boundary. -/
def scanWord (w : List Char) : List Char → Bool → Bool
  | [], atB => atB && matchHere w []
  | c :: rest, atB => (atB && matchHere w (c :: rest)) || scanWord w rest (!isWordChar c)

/-- `re.search(r'\bWORD\b', s, re.IGNORECASE)` for a single word, with `w`
given in lower case. -/
def containsWord (w : String) (s : String) : Bool := scanWord w.data s.data true

/-- The error pattern of `analyze_logs` line 335:
`r'\bERROR\b|\bFailed\b|\bFAILURE\b|\bEXCEPTION\b'` with `re.IGNORECASE`. -/
def matches_error (seg : String) : Bool :=
  containsWord "error" seg || containsWord "failed" seg
    || containsWord "failure" seg || containsWord "exception" seg

/-- The warning pattern of `analyze_logs` line 337:
`r'\bWARN\b|\bWARNING\b'` with `re.IGNORECASE`. -/
def matches_warning (seg : String) : Bool :=
  containsWord "warn" seg || containsWord "warning" seg

/-- The deterministic fallback score of `analyze_logs` (source lines 332-341),
used for every segment of a run whose models failed to load. -/
def fallback_score (seg : String) : ℚ :=
  let critical_issue := (detect_issues seg).2.2
  let s : ℚ := 30
  let s := if matches_error seg then s + 40 else s
  let s := if matches_warning seg then s + 15 else s
  let s := if critical_issue.isSome then s + 10 else s
  min s 100

/-- Python's `s.split(sep)` for a one-character separator. -/
def splitCharAcc (sep : Char) (acc : List Char) : List Char → List (List Char)
  | [] => [acc.reverse]
  | c :: rest =>
    if c == sep then acc.reverse :: splitCharAcc sep [] rest
    else splitCharAcc sep (c :: acc) rest

/-- Python's `s.split(sep)` for a one-character separator, on strings. -/
def py_split_char (sep : Char) (s : String) : List String :=
  (splitCharAcc sep [] s.data).map (fun l => ⟨l⟩)

/-- Python's `s.strip(c)` for a single strip character. -/
def stripCharBoth (c : Char) (s : String) : String :=
  ⟨((s.data.dropWhile (· == c)).reverse.dropWhile (· == c)).reverse⟩

/-- Python's `s.lstrip(c)` for a single strip character. -/
def stripCharLeft (c : Char) (s : String) : String :=
  ⟨s.data.dropWhile (· == c)⟩

/-- The decoded `CODET5_SUGGESTIONS` catalog (source lines 50-80).
The base64 blob embedded in the script is not valid base64 (its data length
is 1 more than a multiple of 4), so `_load_codeT5_suggestions` takes its
exception path and the catalog loaded into memory is the empty mapping. -/
def CODET5_SUGGESTIONS : List (String × String) := []

/-- Steps 2-4 of `generate_custom_suggestion` (source lines 235-277): the
catalog lookup by critical issue, the catalog lookup by service-name
prefix-match, the per-service canned texts, and the generic last resort. -/
def suggestion_chain (service problem_type : String)
    (critical_issue : Option String) : String :=
  match critical_issue.bind (fun ci =>
      (CODET5_SUGGESTIONS.find? (fun kv => pyIn (py_lower kv.1) (py_lower ci))).map (·.2)) with
  | some v => v
  | none =>
    match (CODET5_SUGGESTIONS.find? (fun kv =>
        py_startswith (py_lower kv.1) (py_lower service))).map (·.2) with
    | some v => v
    | none =>
      if service = "Jenkins" then
        "Recommendation (Jenkins):\n1. Check global tool config for Git installations.\n2. Ensure credentials are configured and bound to jobs.\n3. Re-run the pipeline with full logs (-x) to find root causes."
      else if service = "SonarQube" then
        "Recommendation (SonarQube):\n1. Validate SonarQube server URL and availability.\n2. Verify scanner token and project key.\n3. Check network/firewall and proxy settings between Jenkins and SonarQube."
      else if service = "Trivy" then
        "Recommendation (Trivy):\n1. Ensure Trivy log directory exists and is writable by Jenkins.\n2. Configure scheduled scans and store outputs centrally.\n3. Upgrade Trivy to latest stable release."
      else if service = "Kubernetes" then
        "Recommendation (Kubernetes):\n1. Add resource limits and requests for pods.\n2. Configure liveness & readiness probes.\n3. Use Secrets for sensitive config and enable monitoring addons."
      else
        "General recommendation: Investigate " ++ service ++ " (" ++ problem_type
          ++ "), review logs, and apply best practices."

/-- `generate_custom_suggestion` (source lines 194-277). `modelOut` is the
stripped CodeT5 completion when the model is available and its call
succeeds, `none` otherwise; the source keeps a model answer only when it
is non-empty and otherwise falls through to the chain. -/
def generate_custom_suggestion (service problem_type : String)
    (critical_issue : Option String) (context : String)
    (modelOut : Option String) : String :=
  match modelOut with
  | some s =>
    if s = "" then suggestion_chain service problem_type critical_issue else s
  | none => suggestion_chain service problem_type critical_issue

/-- Python `config.get(key)` on the CMDB config mapping (values modelled as
strings, with Python falsiness of a value mapped to the empty string). -/
def cfgGet (config : List (String × String)) (k : String) : Option String :=
  (config.find? (fun kv => kv.1 == k)).map (·.2)

/-- `str(config.get("version", "")).strip()` (source line 413). -/
def config_version (config : List (String × String)) : String :=
  pyStrip ((cfgGet config "version").getD "")

/-- The per-service version/resource checks of `analyze_service_config`
(source lines 415-483) as a list of (issue text, score weight) pairs, in
the order the source appends the issues. `pf` embeds Python's `float`
parser (`none` = `ValueError`, which the source catches and ignores) and
`fe` embeds `os.path.exists`. -/
def service_checks (service version : String) (config : List (String × String))
    (pf : String → Option ℚ) (fe : String → Bool) : List (String × ℚ) :=
  if py_lower service = "jenkins" then
    if version != "" && (match pf ((py_split_char '.' version).headD "") with
        | some x => decide (x < 2)
        | none => false) then
      [("Jenkins version seems outdated", 30)]
    else []
  else if py_lower service = "sonarqube" then
    if py_startswith version "9.9" then
      [("SonarQube 9.9 may not be fully supported; consider 10.x LTS", 30)]
    else []
  else if py_lower service = "trivy" then
    (if version != "" && (match pf (stripCharBoth 'v' version) with
        | some x => decide (x < 0.50)
        | none => false) then
      [("Trivy version is older than recommended", 20)]
    else []) ++
    (if !fe ((cfgGet config "logs").getD "") then
      [("Trivy logs path is missing or inaccessible", 20)]
    else [])
  else if py_lower service = "minikube" then
    if version != "" && py_startswith version "v"
        && (match pf ((py_split_char '.' (stripCharLeft 'v' version)).headD "") with
        | some x => decide (x < 1.30)
        | none => false) then
      [("Minikube version is outdated", 20)]
    else []
  else if py_lower service = "springboot-app" || py_lower service = "springboot" then
    if (cfgGet config "resources").getD "" = "" then
      [("Resource limits not configured for Spring Boot container", 30)]
    else []
  else []

/-- The canned suggestion attached by each branch of
`analyze_service_config`; the initial value `suggestion = ""` of line 409
is kept for unrecognized services. -/
def cmdb_suggestion (service : String) : String :=
  if py_lower service = "jenkins" then
    "Jenkins recommendations:\n1. Update to the latest LTS.\n2. Configure Git plugin and credential bindings.\n3. Enable job monitoring and role-based access."
  else if py_lower service = "sonarqube" then
    "SonarQube recommendations:\n1. Update to 10.x LTS.\n2. Configure quality gates and scanners.\n3. Ensure report-task.txt is produced by analyzer."
  else if py_lower service = "trivy" then
    "Trivy recommendations:\n1. Upgrade Trivy to latest stable.\n2. Ensure logs directory exists and Jenkins can write.\n3. Schedule periodic scans and centralize results."
  else if py_lower service = "minikube" then
    "Minikube recommendations:\n1. Upgrade to v1.33+.\n2. Assign resources and enable monitoring addons.\n"
  else if py_lower service = "springboot-app" || py_lower service = "springboot" then
    "Spring Boot recommendations:\n1. Configure resource limits and requests.\n2. Add liveness/readiness probes.\n3. Enable horizontal pod autoscaling where relevant."
  else ""

/-- The record returned by `analyze_service_config` (source lines 486-493). -/
structure ServiceAudit where
  service : String
  environment : String
  version : String
  score : ℚ
  issues : List String
  suggestion : String
deriving Repr, DecidableEq

/-- `analyze_service_config` (source lines 407-493): per-service CMDB audit.
`base_score` starts at 30 and is incremented by each check's weight; the
final score is `min(base_score + max(0, len(config) * 5), 100)`. -/
def analyze_service_config (service : String) (config : List (String × String))
    (env : String) (pf : String → Option ℚ) (fe : String → Bool) : ServiceAudit :=
  let version := config_version config
  let checks := service_checks service version config pf fe
  let base_score : ℚ := 30 + (checks.map (·.2)).sum
  { service := service
    environment := env
    version := if version = "" then "N/A" else version
    score := min (base_score + max 0 ((config.length : ℚ) * 5)) 100
    issues := checks.map (·.1)
    suggestion := cmdb_suggestion service }

/-- A row of `print_summary_table` (source lines 533-560): the fields of a
Finding the summary and ranking read. -/
structure Finding where
  service : String
  descr : String
  score : ℚ
  suggestion : String
deriving Repr, DecidableEq

/-- Python's `sorted(results, key=lambda x: x.get("score", 0), reverse=True)`
(source line 554). Python's `sorted` is a stable sort, and a stable sort
for a total preorder has a unique result, so the stable `List.mergeSort`
embeds it faithfully. -/
def sorted_by_score_desc (results : List Finding) : List Finding :=
  results.mergeSort (fun a b => decide (b.score ≤ a.score))

/-- The top-3 ranking of `print_summary_table` (source line 554):
`sorted(results, key=score, reverse=True)[:3]`. -/
def top3 (results : List Finding) : List Finding :=
  (sorted_by_score_desc results).take 3

/-- Python's `s.split("\n\n")`: cut at each non-overlapping occurrence of two
consecutive newline characters, leftmost first. -/
def splitAcc (acc : List Char) : List Char → List (List Char)
  | [] => [acc.reverse]
  | '\n' :: '\n' :: rest => acc.reverse :: splitAcc [] rest
  | c :: rest => splitAcc (c :: acc) rest

/-- Python's `logs.split("\n\n")` on strings. -/
def py_split_nn (s : String) : List String :=
  (splitAcc [] s.data).map (fun l => ⟨l⟩)

/-- The Segmenter (source line 311):
`[seg.strip() for seg in logs.split("\n\n") if seg.strip()]`. -/
def split_segments (logs : String) : List String :=
  (py_split_nn logs).filterMap (fun seg =>
    let t := pyStrip seg
    if t = "" then none else some t)

/-- A parameter character of an ANSI style sequence (`[0-9;]`). -/
def isAnsiParam (c : Char) : Bool := ('0' ≤ c && c ≤ '9') || c = ';'

/-- Try to match the remainder `[[0-9;]*m` of an ANSI escape sequence at the
head of `l`, returning the text after the sequence on success. -/
def matchAnsiTail (l : List Char) : Option (List Char) :=
  match l with
  | '[' :: r =>
    match r.dropWhile isAnsiParam with
    | 'm' :: tail => some tail
    | _ => none
  | _ => none

/-- `re.sub(r'\x1b\[[0-9;]*m', '', content)` (source line 101): remove every
ANSI style sequence, scanning left to right. -/
def stripAnsiList : List Char → List Char
  | [] => []
  | c :: rest =>
    if c = '\x1b' then
      match hm : matchAnsiTail rest with
      | some tail => stripAnsiList tail
      | none => c :: stripAnsiList rest
    else c :: stripAnsiList rest
termination_by l => l.length
decreasing_by
  · have h : matchAnsiTail rest = some tail := by assumption
    unfold matchAnsiTail at h
    have key : ∀ r : List Char, List.dropWhile isAnsiParam r = 'm' :: tail →
        tail.length < ('[' :: r).length := by
      intro r hr
      have h2 : (List.dropWhile isAnsiParam r).length ≤ r.length :=
        (List.dropWhile_sublist _).length_le
      rw [hr] at h2
      simp only [List.length_cons] at h2 ⊢
      omega
    have hlt : tail.length < rest.length := by
      split at h
      · split at h
        · cases h
          exact key _ (by assumption)
        · exact absurd h (by simp)
      · exact absurd h (by simp)
    exact Nat.lt_succ_of_lt hlt
  · exact Nat.lt_succ_self _
  · exact Nat.lt_succ_self _

/-- ANSI stripping on strings. -/
def strip_ansi (s : String) : String := ⟨stripAnsiList s.data⟩

/-- `MAX_LINE_WIDTH` (source line 31). -/
def MAX_LINE_WIDTH : ℕ := 100

/-- The timestamped file header of `save_output_to_file` (source lines
89-98), with its yellow ANSI separators. -/
def file_header (timestamp : String) : String :=
  "\n" ++ "\x1b[33;1m" ++ ⟨List.replicate MAX_LINE_WIDTH '='⟩ ++ "\x1b[0m" ++ "\n"
    ++ "\x1b[33;1m" ++ "ANALYSIS TIMESTAMP: " ++ timestamp ++ "\x1b[0m" ++ "\n"
    ++ "\x1b[33;1m" ++ ⟨List.replicate MAX_LINE_WIDTH '='⟩ ++ "\x1b[0m" ++ "\n\n"

/-- `save_output_to_file` (source lines 83-107) as a transformer of the
output artifact's content: the file is opened in append mode and receives
the header followed by the ANSI-stripped report. -/
def save_output_to_file (file content timestamp : String) : String :=
  file ++ file_header timestamp ++ strip_ansi content ++ "\n"

/-- C1: `get_severity` is a pure function of the score returning exactly one
of the three buckets, with `high` iff `score > 75`, `medium` iff
`50 < score ≤ 75`, and `low` iff `score ≤ 50`. -/
theorem get_severity_buckets (score : ℚ) :
    ((get_severity score).1 = "high" ↔ score > 75)
    ∧ ((get_severity score).1 = "medium" ↔ 50 < score ∧ score ≤ 75)
    ∧ ((get_severity score).1 = "low" ↔ score ≤ 50)
    ∧ ((get_severity score).1 = "high" ∨ (get_severity score).1 = "medium"
        ∨ (get_severity score).1 = "low") := by
  unfold get_severity
  by_cases h75 : score > 75 <;> by_cases h50 : score > 50 <;>
    simp [h75, h50] <;> linarith

/-- C3: in heuristic fallback mode the score of a segment is 30, plus 40 for
an error/failure/exception pattern match, plus 15 for a warning pattern
match, plus 10 when the rule classifier found a critical issue, clamped
to at most 100. -/
theorem fallback_score_formula (seg : String) :
    fallback_score seg =
      min (30 + (if matches_error seg then (40 : ℚ) else 0)
            + (if matches_warning seg then (15 : ℚ) else 0)
            + (if (detect_issues seg).2.2.isSome then (10 : ℚ) else 0)) 100 := by
  unfold fallback_score
  rcases he : matches_error seg <;> rcases hw : matches_warning seg
    <;> rcases hc : (detect_issues seg).2.2.isSome <;> simp [he, hw, hc]

/-- C10: the heuristic fallback score always lies in `[30, 95]`; in
particular the clamp to 100 is unreachable, so a fallback-mode finding
never scores above 95. -/
theorem fallback_score_range (seg : String) :
    30 ≤ fallback_score seg ∧ fallback_score seg ≤ 95 := by
  unfold fallback_score
  rcases he : matches_error seg <;> rcases hw : matches_warning seg
    <;> rcases hc : (detect_issues seg).2.2.isSome <;> simp [he, hw, hc] <;> norm_num

/-- A string with a non-empty left part stays non-empty under append. -/
theorem ne_empty_append (a b : String) (h : a ≠ "") : a ++ b ≠ "" := by
  intro hc
  apply h
  obtain ⟨d⟩ := a
  obtain ⟨e⟩ := b
  have hde : d ++ e = ([] : List Char) := congrArg String.data hc
  have hd : d = [] := (List.append_eq_nil.mp hde).1
  subst hd
  rfl

/-- The post-model suggestion chain never returns the empty string. -/
theorem suggestion_chain_ne_empty (service problem_type : String)
    (critical_issue : Option String) :
    suggestion_chain service problem_type critical_issue ≠ "" := by
  unfold suggestion_chain
  cases critical_issue <;>
    simp only [CODET5_SUGGESTIONS, List.find?_nil, Option.map_none', Option.none_bind,
      Option.some_bind] <;>
    split_ifs <;>
    first
      | decide
      | (repeat apply ne_empty_append) <;> decide

/-- C2 counterexample: the CMDB audit of a service outside the per-service
rule set attaches the empty string as its suggestion, refuting the claim
that every Finding's suggestion is non-empty. -/
theorem cmdb_unknown_service_empty_suggestion :
    (analyze_service_config "db2" [] "production"
        (fun _ => none) (fun _ => false)).suggestion = "" := by
  rfl

/-- C2 amended: the log-segment suggestion chain never returns an empty
string, for every combination of service, problem type, critical issue,
context and model outcome; CMDB Findings carry a non-empty suggestion for
the recognized services (jenkins, sonarqube, trivy, minikube,
springboot-app, springboot), but not for unrecognized service names. -/
theorem suggestion_nonempty_amended :
    (∀ service problem_type critical_issue context modelOut,
      generate_custom_suggestion service problem_type critical_issue context modelOut ≠ "")
    ∧ (∀ service config env pf fe,
      py_lower service ∈ (["jenkins", "sonarqube", "trivy", "minikube",
          "springboot-app", "springboot"] : List String) →
      (analyze_service_config service config env pf fe).suggestion ≠ "") := by
  constructor
  · intro service problem_type critical_issue context modelOut
    unfold generate_custom_suggestion
    match modelOut with
    | none => exact suggestion_chain_ne_empty _ _ _
    | some s =>
      by_cases hs : s = ""
      · simpa [hs] using suggestion_chain_ne_empty service problem_type critical_issue
      · simpa [hs] using hs
  · intro service config env pf fe hmem
    have hsugg : (analyze_service_config service config env pf fe).suggestion
        = cmdb_suggestion service := rfl
    rw [hsugg]
    simp only [List.mem_cons, List.not_mem_nil, or_false] at hmem
    rcases hmem with h | h | h | h | h | h <;> simp [cmdb_suggestion, h]

/-- Witness for the amended C2 theorem at concrete inputs. -/
theorem suggestion_nonempty_amended_witness :
    generate_custom_suggestion "Other" "Information" none "some log text" none ≠ ""
    ∧ (analyze_service_config "minikube" [] "dev"
        (fun _ => none) (fun _ => false)).suggestion ≠ "" :=
  ⟨suggestion_nonempty_amended.1 "Other" "Information" none "some log text" none,
   suggestion_nonempty_amended.2 "minikube" [] "dev"
     (fun _ => none) (fun _ => false) (by decide)⟩

/-- C4: the CMDB audit score equals
`min(100, 30 + per-issue weights + 5 * number of config keys)`; that
formula is monotonically non-decreasing in the total issue weight and in
the number of configuration keys, every detected issue carries a positive
weight, and the score is capped at 100. -/
theorem cmdb_score_formula_monotone :
    (∀ service config env pf fe,
      (analyze_service_config service config env pf fe).score
        = min 100 (30
            + ((service_checks service (config_version config) config pf fe).map (·.2)).sum
            + 5 * (config.length : ℚ)))
    ∧ (∀ (w w' : ℚ) (k : ℕ), w ≤ w' →
        min 100 (30 + w + 5 * (k : ℚ)) ≤ min 100 (30 + w' + 5 * (k : ℚ)))
    ∧ (∀ (w : ℚ) (k k' : ℕ), k ≤ k' →
        min 100 (30 + w + 5 * (k : ℚ)) ≤ min 100 (30 + w + 5 * (k' : ℚ)))
    ∧ (∀ (service : String) (config : List (String × String))
        (pf : String → Option ℚ) (fe : String → Bool),
        ∀ p ∈ service_checks service (config_version config) config pf fe, (0 : ℚ) < p.2)
    ∧ (∀ service config env pf fe,
        (analyze_service_config service config env pf fe).score ≤ 100) := by
  refine ⟨?_, ?_, ?_, ?_, ?_⟩
  · intro service config env pf fe
    show min (30 + _ + max 0 ((config.length : ℚ) * 5)) 100 = _
    rw [max_eq_right (by positivity), min_comm]
    congr 1
    ring
  · intro w w' k h
    exact min_le_min le_rfl (by linarith)
  · intro w k k' h
    have hk : (k : ℚ) ≤ (k' : ℚ) := by exact_mod_cast h
    exact min_le_min le_rfl (by linarith)
  · intro service config pf fe p hp
    unfold service_checks at hp
    repeat' split at hp
    all_goals simp only [List.mem_append, List.mem_singleton, List.not_mem_nil,
      or_false, false_or] at hp
    all_goals try rcases hp with hp | hp
    all_goals try rw [hp]
    all_goals norm_num
  · intro service config env pf fe
    exact min_le_right _ _

/-- Witness for the C4 theorem at concrete inputs. -/
theorem cmdb_score_formula_monotone_witness :
    (analyze_service_config "sonarqube" [("version", "9.9.1")] "prod"
        (fun _ => none) (fun _ => false)).score
      = min 100 (30
          + ((service_checks "sonarqube"
              (config_version [("version", "9.9.1")]) [("version", "9.9.1")]
              (fun _ => none) (fun _ => false)).map (·.2)).sum
          + 5 * (([("version", "9.9.1")] : List (String × String)).length : ℚ))
    ∧ min 100 (30 + (0 : ℚ) + 5 * ((1 : ℕ) : ℚ))
        ≤ min 100 (30 + (30 : ℚ) + 5 * ((1 : ℕ) : ℚ)) :=
  ⟨cmdb_score_formula_monotone.1 "sonarqube" [("version", "9.9.1")] "prod"
      (fun _ => none) (fun _ => false),
   cmdb_score_formula_monotone.2.1 0 30 1 (by norm_num)⟩

/-- Evaluation of the sonarqube 9.9.1 audit, shared by the C5 statements. -/
theorem sonarqube_991_eval (env : String) (pf : String → Option ℚ)
    (fe : String → Bool) :
    (analyze_service_config "sonarqube" [("version", "9.9.1")] env pf fe).issues
      = ["SonarQube 9.9 may not be fully supported; consider 10.x LTS"]
    ∧ (analyze_service_config "sonarqube" [("version", "9.9.1")] env pf fe).score = 65 := by
  have hv : config_version [("version", "9.9.1")] = "9.9.1" := by decide
  have hj : ¬(py_lower "sonarqube" = "jenkins") := by decide
  have hq : py_lower "sonarqube" = "sonarqube" := by decide
  have hsw : py_startswith "9.9.1" "9.9" = true := by decide
  unfold analyze_service_config
  rw [hv]
  constructor <;> simp [service_checks, hj, hq, hsw] <;> norm_num [min_def, max_def]

/-- C5 counterexample: auditing `sonarqube` with config
`{"version": "9.9.1"}` yields score 65 (30 base + 30 issue weight + 5 for
the single config key), which is below the claimed bound of 70. -/
theorem sonarqube_991_score_below_70 :
    (analyze_service_config "sonarqube" [("version", "9.9.1")] "production"
        (fun _ => none) (fun _ => false)).score = 65
    ∧ ¬(70 ≤ (analyze_service_config "sonarqube" [("version", "9.9.1")] "production"
        (fun _ => none) (fun _ => false)).score) := by
  have h65 := (sonarqube_991_eval "production" (fun _ => none) (fun _ => false)).2
  rw [h65]
  norm_num

/-- C5 amended: auditing `sonarqube` with config `{"version": "9.9.1"}`
yields the issue "SonarQube 9.9 may not be fully supported; consider 10.x
LTS" and a score of exactly 65 (30 base + 30 weight + 5 per config key),
whatever the environment and external collaborators. -/
theorem sonarqube_991_audit (env : String) (pf : String → Option ℚ)
    (fe : String → Bool) :
    (analyze_service_config "sonarqube" [("version", "9.9.1")] env pf fe).issues
      = ["SonarQube 9.9 may not be fully supported; consider 10.x LTS"]
    ∧ (analyze_service_config "sonarqube" [("version", "9.9.1")] env pf fe).score = 65 :=
  sonarqube_991_eval env pf fe

/-- C6: auditing a service outside the per-service rule set with the empty
config mapping yields an empty issue list and a score of exactly 30. -/
theorem unknown_service_empty_config_audit (service env : String)
    (pf : String → Option ℚ) (fe : String → Bool)
    (h : py_lower service ∉ (["jenkins", "sonarqube", "trivy", "minikube",
        "springboot-app", "springboot"] : List String)) :
    (analyze_service_config service [] env pf fe).issues = []
    ∧ (analyze_service_config service [] env pf fe).score = 30 := by
  simp only [List.mem_cons, List.not_mem_nil, or_false, not_or] at h
  obtain ⟨h1, h2, h3, h4, h5, h6⟩ := h
  unfold analyze_service_config service_checks
  simp [h1, h2, h3, h4, h5, h6]
  norm_num

/-- Witness for the C6 theorem at a concrete unrecognized service. -/
theorem unknown_service_empty_config_audit_witness :
    (analyze_service_config "db2" [] "qa" (fun _ => none) (fun _ => false)).issues = []
    ∧ (analyze_service_config "db2" [] "qa" (fun _ => none) (fun _ => false)).score = 30 :=
  unknown_service_empty_config_audit "db2" "qa"
    (fun _ => none) (fun _ => false) (by decide)

/-- Dropping again after dropping changes nothing. -/
theorem dropWhile_dropWhile (p : Char → Bool) (l : List Char) :
    (l.dropWhile p).dropWhile p = l.dropWhile p := by
  induction l with
  | nil => rfl
  | cons a t ih => by_cases h : p a <;> simp [List.dropWhile_cons, h, ih]

/-- The head surviving a `dropWhile` does not satisfy the predicate. -/
theorem head?_dropWhile (p : Char → Bool) (l : List Char) (x : Char)
    (h : (l.dropWhile p).head? = some x) : p x = false := by
  induction l with
  | nil => simp at h
  | cons a t ih =>
    by_cases hpa : p a
    · rw [List.dropWhile_cons, if_pos hpa] at h
      exact ih h
    · rw [List.dropWhile_cons, if_neg hpa] at h
      simp only [List.head?_cons, Option.some.injEq] at h
      subst h
      simpa using hpa

/-- A list whose head does not satisfy `p` is unchanged by `dropWhile p`. -/
theorem dropWhile_eq_self_of_head? (p : Char → Bool) (l : List Char)
    (h : ∀ x, l.head? = some x → p x = false) : l.dropWhile p = l := by
  cases l with
  | nil => rfl
  | cons a t =>
    have := h a rfl
    simp [List.dropWhile_cons, this]

/-- `trimRight` keeps a left-trimmed list left-trimmed. -/
theorem trimLeft_of_trimRight (l : List Char) (h : trimLeft pyWS l = l) :
    trimLeft pyWS (trimRight pyWS l) = trimRight pyWS l := by
  obtain ⟨t, ht⟩ := (List.dropWhile_suffix (l := l.reverse) pyWS)
  have hl : trimRight pyWS l ++ t.reverse = l := by
    unfold trimRight
    calc (l.reverse.dropWhile pyWS).reverse ++ t.reverse
        = (t ++ l.reverse.dropWhile pyWS).reverse := by rw [List.reverse_append]
      _ = l.reverse.reverse := by rw [ht]
      _ = l := List.reverse_reverse l
  apply dropWhile_eq_self_of_head?
  intro x hx
  have hne : trimRight pyWS l ≠ [] := by
    intro hnil
    rw [hnil] at hx
    simp at hx
  have hxl : l.head? = some x := by
    rw [← hl]
    cases hcase : trimRight pyWS l with
    | nil => exact absurd hcase hne
    | cons b bs =>
      rw [hcase] at hx
      simp only [List.head?_cons, Option.some.injEq] at hx
      subst hx
      simp
  have hll : l.dropWhile pyWS = l := h
  exact head?_dropWhile pyWS l x (by rw [hll]; exact hxl)

/-- Python's `strip` is idempotent. -/
theorem stripList_idem (l : List Char) : stripList (stripList l) = stripList l := by
  unfold stripList
  have hA : trimLeft pyWS (trimLeft pyWS l) = trimLeft pyWS l :=
    dropWhile_dropWhile pyWS l
  have h1 : trimLeft pyWS (trimRight pyWS (trimLeft pyWS l))
      = trimRight pyWS (trimLeft pyWS l) := trimLeft_of_trimRight _ hA
  rw [h1]
  unfold trimRight
  rw [List.reverse_reverse, dropWhile_dropWhile]

/-- `pyStrip` is idempotent. -/
theorem pyStrip_idem (s : String) : pyStrip (pyStrip s) = pyStrip s :=
  congrArg String.mk (stripList_idem s.data)

/-- The Segmenter's comprehension is the strip-then-filter pipeline. -/
theorem filterMap_strip_eq (l : List String) :
    (l.filterMap (fun seg =>
        let t := pyStrip seg
        if t = "" then none else some t))
      = (l.map pyStrip).filter (fun t => !(t == "")) := by
  induction l with
  | nil => rfl
  | cons a t ih =>
    simp only [List.filterMap_cons, List.map_cons, List.filter_cons]
    by_cases h : pyStrip a = "" <;> simp [h, ih]

/-- C8: the Segmenter yields the empty sequence on empty input, equals the
split-trim-filter pipeline on the double-newline separator, and every
segment it produces is non-empty and fully trimmed, in appearance order. -/
theorem split_segments_spec :
    split_segments "" = []
    ∧ (∀ logs : String, split_segments logs
        = ((py_split_nn logs).map pyStrip).filter (fun t => !(t == "")))
    ∧ (∀ logs : String, ∀ t ∈ split_segments logs, t ≠ "" ∧ pyStrip t = t) := by
  refine ⟨by decide, ?_, ?_⟩
  · intro logs
    exact filterMap_strip_eq (py_split_nn logs)
  · intro logs t ht
    unfold split_segments at ht
    rw [List.mem_filterMap] at ht
    obtain ⟨a, _, hfa⟩ := ht
    by_cases h : pyStrip a = ""
    · simp [h] at hfa
    · simp only [h, if_false, Option.some.injEq] at hfa
      subst hfa
      exact ⟨h, pyStrip_idem a⟩

/-- Witness for the C8 theorem at a concrete log text. -/
theorem split_segments_spec_witness :
    "alpha" ≠ "" ∧ pyStrip "alpha" = "alpha" :=
  split_segments_spec.2.2 "  alpha  \n\n   " "alpha" (by decide)

/-- C7: the top-3 ranking keeps at most three findings, in non-increasing
score order, and the underlying descending sort is stable: for every score
value, the findings carrying that score appear in their original input
order. -/
theorem top3_ranking_spec (results : List Finding) :
    (top3 results).length ≤ 3
    ∧ (top3 results).Pairwise (fun a b => b.score ≤ a.score)
    ∧ (∀ q : ℚ, (sorted_by_score_desc results).filter (fun r => decide (r.score = q))
        = results.filter (fun r => decide (r.score = q))) := by
  have htrans : ∀ a b c : Finding, decide (b.score ≤ a.score) = true →
      decide (c.score ≤ b.score) = true → decide (c.score ≤ a.score) = true := by
    intro a b c hab hbc
    simp only [decide_eq_true_eq] at *
    exact le_trans hbc hab
  have htotal : ∀ a b : Finding,
      (decide (b.score ≤ a.score) || decide (a.score ≤ b.score)) = true := by
    intro a b
    simp only [Bool.or_eq_true, decide_eq_true_eq]
    exact le_total b.score a.score
  refine ⟨?_, ?_, ?_⟩
  · rw [top3, List.length_take]
    exact min_le_left _ _
  · have hp := List.sorted_mergeSort htrans htotal results
    have hp2 : (sorted_by_score_desc results).Pairwise
        (fun a b => b.score ≤ a.score) :=
      hp.imp (fun h => by simpa using of_decide_eq_true h)
    exact List.Pairwise.sublist (List.take_sublist 3 _) hp2
  · intro q
    have hall : ∀ a ∈ results.filter (fun r => decide (r.score = q)),
        decide (a.score = q) = true := by
      intro a ha
      simpa using (List.mem_filter.mp ha).2
    have hpw : (results.filter (fun r => decide (r.score = q))).Pairwise
        (fun a b => decide (b.score ≤ a.score) = true) := by
      apply List.pairwise_of_forall_mem_list
      intro a ha b hb
      have ha' : a.score = q := of_decide_eq_true (hall a ha)
      have hb' : b.score = q := of_decide_eq_true (hall b hb)
      simp [ha', hb']
    have hsm : List.Sublist (results.filter (fun r => decide (r.score = q)))
        (results.mergeSort (fun a b => decide (b.score ≤ a.score))) :=
      List.sublist_mergeSort htrans htotal hpw (List.filter_sublist results)
    have hfil : List.Sublist (results.filter (fun r => decide (r.score = q)))
        ((sorted_by_score_desc results).filter (fun r => decide (r.score = q))) := by
      have h2 := hsm.filter (fun r => decide (r.score = q))
      rwa [List.filter_eq_self.mpr hall] at h2
    have hperm : List.Perm
        ((sorted_by_score_desc results).filter (fun r => decide (r.score = q)))
        (results.filter (fun r => decide (r.score = q))) :=
      (List.mergeSort_perm results _).filter _
    exact (hfil.eq_of_length hperm.length_eq.symm).symm

/-- Strings append associatively. -/
theorem string_append_assoc (a b c : String) : (a ++ b) ++ c = a ++ (b ++ c) := by
  obtain ⟨x⟩ := a
  obtain ⟨y⟩ := b
  obtain ⟨z⟩ := c
  show (⟨(x ++ y) ++ z⟩ : String) = ⟨x ++ (y ++ z)⟩
  rw [List.append_assoc]

/-- ANSI stripping keeps escape-free text unchanged. -/
theorem stripAnsiList_of_no_esc (l : List Char) (h : ∀ c ∈ l, c ≠ '\x1b') :
    stripAnsiList l = l := by
  induction l with
  | nil => simp [stripAnsiList]
  | cons a rest ih =>
    have ha : a ≠ '\x1b' := h a (by simp)
    rw [stripAnsiList]
    simp only [ha, if_false]
    exact congrArg (a :: ·) (ih fun c hc => h c (List.mem_cons_of_mem _ hc))

/-- `dropWhile` consumes a block of parameter characters before an `m`. -/
theorem dropWhile_params_append (ps s : List Char)
    (h : ∀ c ∈ ps, isAnsiParam c = true) :
    (ps ++ 'm' :: s).dropWhile isAnsiParam = 'm' :: s := by
  induction ps with
  | nil =>
    simp [List.dropWhile_cons, isAnsiParam]
  | cons a t ih =>
    have ha := h a (List.mem_cons_self a t)
    rw [List.cons_append, List.dropWhile_cons]
    simp only [ha, if_true]
    exact ih fun c hc => h c (List.mem_cons_of_mem a hc)

/-- C9: a run's persisted output is the prior file content, unchanged, with
the timestamped header and the ANSI-stripped report text appended after
it; the stripper is the identity on escape-free text and removes each
ANSI style sequence it meets. -/
theorem save_output_spec :
    (∀ file content ts : String, save_output_to_file file content ts
        = file ++ (file_header ts ++ strip_ansi content ++ "\n"))
    ∧ (∀ s : String, (∀ c ∈ s.data, c ≠ '\x1b') → strip_ansi s = s)
    ∧ (∀ ps s : List Char, (∀ c ∈ ps, isAnsiParam c = true) →
        stripAnsiList ('\x1b' :: '[' :: (ps ++ 'm' :: s)) = stripAnsiList s) := by
  refine ⟨?_, ?_, ?_⟩
  · intro file content ts
    unfold save_output_to_file
    rw [string_append_assoc, string_append_assoc,
      string_append_assoc (file_header ts) (strip_ansi content) "\n"]
  · intro s h
    have h1 := stripAnsiList_of_no_esc s.data h
    unfold strip_ansi
    rw [h1]
  · intro ps s h
    have hdrop := dropWhile_params_append ps s h
    have hm : matchAnsiTail ('[' :: (ps ++ 'm' :: s)) = some s := by
      show (match List.dropWhile isAnsiParam (ps ++ 'm' :: s) with
        | 'm' :: tail => some tail
        | _ => none) = some s
      rw [hdrop]
      rfl
    rw [stripAnsiList]
    rw [if_pos rfl]
    split
    · rename_i tail htail
      rw [hm] at htail
      cases htail
      rfl
    · rename_i htail
      rw [hm] at htail
      simp at htail

/-- Witness for the C9 theorem at concrete inputs. -/
theorem save_output_spec_witness :
    strip_ansi "plain text" = "plain text"
    ∧ stripAnsiList ('\x1b' :: '[' :: (['3', '3', ';', '1'] ++ 'm' :: "ok".data))
        = stripAnsiList "ok".data :=
  ⟨save_output_spec.2.1 "plain text" (by decide),
   save_output_spec.2.2 ['3', '3', ';', '1'] "ok".data (by decide)⟩

end DevsecopsAudit
